import Mathlib

/-!
Verification development for the mitsuba reconstruction-filter family,
the windowed polyphase resampler, and the build-variant configuration
generator (`resources/configure.py`).

The reconstruction-filter and resampler implementation is not part of the
repository snapshot (only its behavioral tests under
`src/rfilters/tests/test_rfilter.py` are), so those components are
modelled from the specification text, with the repository's tests used as
the authoritative oracle for concrete values.  The configuration
generator is present in full and is embedded directly.
-/

namespace RF

/-- Modelled from the spec: the box reconstruction filter (the filter
implementation is absent from the repository).  `eval` is the indicator
of the open interval `(-radius, radius)`; the tests pin down strictness
at the boundary (`eval 0.49 = 1`, `eval 0.51 = 0`, and `eval x = 0` for
`|x| ≥ radius` for every variant). -/
def boxEval {α : Type} [LinearOrderedField α] (radius x : α) : α :=
  if |x| < radius then 1 else 0

/-- Modelled from the spec: the piecewise-linear tent filter with
support half-width `radius`; `1 - |x|/radius` clamped to `0` below. -/
def tentEval {α : Type} [LinearOrderedField α] (radius x : α) : α :=
  max 0 (1 - |x| / radius)

/-- Modelled from the spec: the Mitchell–Netravali piecewise cubic with
shape parameters `B`, `C` and fixed support radius `2`. -/
def mitchellEval {α : Type} [LinearOrderedField α] (B C x : α) : α :=
  if |x| < 1 then
    ((12 - 9*B - 6*C) * |x|^3 + (-18 + 12*B + 6*C) * |x|^2 + (6 - 2*B)) / 6
  else if |x| < 2 then
    ((-B - 6*C) * |x|^3 + (6*B + 30*C) * |x|^2 + (-12*B - 48*C) * |x|
      + (8*B + 24*C)) / 6
  else 0

/-- Modelled from the spec: the Catmull–Rom spline, the Mitchell cubic
at `B = 0`, `C = 1/2`. -/
def catmullRomEval {α : Type} [LinearOrderedField α] (x : α) : α :=
  mitchellEval 0 (1/2) x

/-- Modelled from the spec: the Gaussian filter, a bump of standard
deviation `1/2` minus its value at the support radius `2` (so that the
function reaches exactly `0` at the boundary):
`exp(-2 x²) - exp(-8)` inside `(-2, 2)`, `0` outside. -/
noncomputable def gaussianEval (x : ℝ) : ℝ :=
  if |x| < 2 then Real.exp (-2 * x^2) - Real.exp (-8) else 0

/-- The unnormalized cardinal sine `sin t / t`, extended by `1` at `0`. -/
noncomputable def sincR (t : ℝ) : ℝ :=
  if t = 0 then 1 else Real.sin t / t

/-- Modelled from the spec: the Lanczos windowed-sinc filter with
support radius `tau`: `sinc(πx) · sinc(πx/tau)` inside the support,
`0` outside. -/
noncomputable def lanczosEval (tau x : ℝ) : ℝ :=
  if |x| < tau then sincR (Real.pi * x) * sincR (Real.pi * x / tau) else 0

/-- Modelled from the spec: `eval_discretized` looks up a table of
evaluation samples over `[0, radius]` built at construction and must
return exactly `0` for `|x| ≥ radius`; the table resolution is
implementation-chosen, and the repository's tests require agreement
with `eval` at the evaluation points used, so the table is modelled as
exact inside the support. -/
def evalDiscretized {α : Type} [LinearOrderedField α]
    (radius : α) (f : α → α) (x : α) : α :=
  if |x| < radius then f x else 0

end RF

namespace RF

/-- A reconstruction filter as consumed by the resampler: a support
half-width together with the discretized evaluation function.  The
resampler only ever evaluates the filter at rational offsets
`(c(j) - i)/scale` (`i`, `j` integer indices, sizes natural numbers),
so the evaluation argument is rational; weight arithmetic happens in the
field `α`. -/
structure FilterKernel (α : Type) where
  radius : ℚ
  eval_discretized : ℚ → α

/-- Modelled from the spec: the continuous source-space coordinate of
target index `j`: `c(j) = (j + 0.5) · source_size/target_size - 0.5`. -/
def center (s t : ℕ) (j : ℕ) : ℚ :=
  ((j : ℚ) + 1/2) * (s : ℚ) / (t : ℚ) - 1/2

/-- Modelled from the spec: the support widening factor
`scale = max(1, source_size/target_size)`. -/
def rscale (s t : ℕ) : ℚ :=
  max 1 ((s : ℚ) / (t : ℚ))

/-- Smallest integer strictly above `c - R`. -/
def tapLo (c R : ℚ) : ℤ := ⌊c - R⌋ + 1

/-- Largest integer strictly below `c + R`. -/
def tapHi (c R : ℚ) : ℤ := ⌈c + R⌉ - 1

/-- Modelled from the spec: the enumeration of all source indices `i`
with `|c - i| < R` (where `R = radius · scale`), in increasing order. -/
def tapIndices (c R : ℚ) : List ℤ :=
  (List.range (tapHi c R - tapLo c R + 1).toNat).map
    (fun (k : ℕ) => tapLo c R + (k : ℤ))

/-- Modelled from the spec: the unnormalized weight list of output
sample `j`: the filter discretization evaluated at `(c(j) - i)/scale`
for each contributing tap `i`. -/
def rawWeights {α : Type} [Field α] (k : FilterKernel α) (s t j : ℕ) :
    List α :=
  (tapIndices (center s t j) (k.radius * rscale s t)).map
    (fun (i : ℤ) => k.eval_discretized ((center s t j - (i : ℚ)) / rscale s t))

/-- Modelled from the spec: the per-output-sample `(index, weight)`
plan, weights normalized so that each output sample's weights sum
to `1`. -/
def planFor {α : Type} [Field α] (k : FilterKernel α) (s t : ℕ) :
    List (List (ℤ × α)) :=
  (List.range t).map (fun (j : ℕ) =>
    (tapIndices (center s t j) (k.radius * rscale s t)).map
      (fun (i : ℤ) => (i,
        k.eval_discretized ((center s t j - (i : ℚ)) / rscale s t)
          / (rawWeights k s t j).sum)))

/-- Modelled from the spec: `taps`, the maximum number of contributing
source samples over all target indices. -/
def tapsOf (r : ℚ) (s t : ℕ) : ℕ :=
  Finset.sup (Finset.range t)
    (fun j => (tapIndices (center s t j) (r * rscale s t)).length)

/-- The five out-of-bounds boundary policies of the resampler. -/
inductive FilterBoundaryCondition : Type
  | Clamp | Zero | One | Repeat | Mirror
deriving DecidableEq

/-- Clamp an index into `[0, n)`. -/
def wrapClamp (n : ℕ) (i : ℤ) : ℤ := max 0 (min i ((n : ℤ) - 1))

/-- Wrap an index modulo `n`. -/
def wrapRepeat (n : ℕ) (i : ℤ) : ℤ := i % (n : ℤ)

/-- Mirror an index by reflecting it about the boundary samples
(period `2(n-1)`): `-1 ↦ 1`, `-2 ↦ 2`, `n ↦ n-2`, as asserted by the
repository's boundary-condition test (its expected values at size 5
resolve index `-1` to sample `1` and index `5` to sample `3`). -/
def wrapMirror (n : ℕ) (i : ℤ) : ℤ :=
  if n ≤ 1 then 0
  else
    let p := i % (2 * ((n : ℤ) - 1))
    if p < (n : ℤ) then p else 2 * ((n : ℤ) - 1) - p

/-- Modelled from the spec: §4.2's literal mirror rule, "index `-1`
maps to `0`, `-2` maps to `1`, etc.", i.e. reflection about the array
boundary with period `2n` (`-1-k ↦ k`, `n+k ↦ n-1-k`). -/
def wrapMirrorSpec (n : ℕ) (i : ℤ) : ℤ :=
  if n = 0 then 0
  else
    let p := i % (2 * (n : ℤ))
    if p < (n : ℤ) then p else 2 * (n : ℤ) - p - 1

/-- Read a (resolved, in-range) sample from the source buffer. -/
def sampleAt {α : Type} [Field α] (src : List α) (i : ℤ) : α :=
  src.getD i.toNat 0

/-- Modelled from the spec: resolve the sample value a tap at source
index `i` contributes, under a boundary policy; `mirror` is the mirror
index rule, a parameter so that the spec's §4.2 wording and the
behavior asserted by the repository's test can be compared. -/
def resolveSampleWith {α : Type} [Field α] (mirror : ℕ → ℤ → ℤ)
    (bc : FilterBoundaryCondition) (src : List α) (n : ℕ) (i : ℤ) : α :=
  match bc with
  | .Clamp => sampleAt src (wrapClamp n i)
  | .Zero => if 0 ≤ i ∧ i < (n : ℤ) then sampleAt src i else 0
  | .One => if 0 ≤ i ∧ i < (n : ℤ) then sampleAt src i else 1
  | .Repeat => sampleAt src (wrapRepeat n i)
  | .Mirror => sampleAt src (mirror n i)

/-- Boundary resolution with the mirror rule matching the repository's
test oracle. -/
def resolveSample {α : Type} [Field α] (bc : FilterBoundaryCondition)
    (src : List α) (n : ℕ) (i : ℤ) : α :=
  resolveSampleWith wrapMirror bc src n i

/-- The resampler: one filter kernel, the two sizes, the tap/weight
plan and maximum tap count (both computed once at construction), and
the mutable boundary policy. -/
structure Resampler (α : Type) where
  kernel : FilterKernel α
  source_size : ℕ
  target_size : ℕ
  plan : List (List (ℤ × α))
  taps : ℕ
  bc : FilterBoundaryCondition

/-- Modelled from the spec: construction precomputes the normalized
tap/weight plan and the maximum tap count; the boundary policy starts
at `Clamp`. -/
def Resampler.make {α : Type} [Field α] (k : FilterKernel α) (s t : ℕ) :
    Resampler α :=
  ⟨k, s, t, planFor k s t, tapsOf k.radius s t, .Clamp⟩

/-- `set_boundary_condition` replaces the active policy and nothing
else. -/
def Resampler.set_boundary_condition {α : Type} (r : Resampler α)
    (p : FilterBoundaryCondition) : Resampler α :=
  { r with bc := p }

/-- Modelled from the spec: apply the precomputed plan to a
single-channel buffer: each output sample accumulates
`weight · resolved_sample(index)` over its taps. -/
def Resampler.resample {α : Type} [Field α] (r : Resampler α)
    (src : List α) : List α :=
  r.plan.map (fun tl =>
    (tl.map (fun iw => iw.2 * resolveSample r.bc src r.source_size iw.1)).sum)

/-- The same application but resolving `Mirror` by §4.2's literal
wording (`-1 ↦ 0`), for comparison against the test oracle. -/
def Resampler.resampleSpecMirror {α : Type} [Field α] (r : Resampler α)
    (src : List α) : List α :=
  r.plan.map (fun tl =>
    (tl.map (fun iw =>
      iw.2 * resolveSampleWith wrapMirrorSpec r.bc src r.source_size iw.1)).sum)

/-- The box filter kernel consumed by the resampler tests
(radius `1/2`). -/
def boxKernel : FilterKernel ℚ :=
  ⟨1/2, fun x => boxEval (1/2) x⟩

/-- The widened tent filter kernel of the boundary-condition test
(radius `0.85 = 17/20`). -/
def tentKernel : FilterKernel ℚ :=
  ⟨17/20, fun x => tentEval (17/20) x⟩

/-- The default Gaussian kernel (radius 2) over the reals. -/
noncomputable def gaussianKernel : FilterKernel ℝ :=
  ⟨2, fun q => gaussianEval (q : ℝ)⟩

lemma ceil_to_floor (x : ℚ) : ⌈x⌉ = -⌊-x⌋ := by
  rw [Int.floor_neg, neg_neg]

lemma toNat_two : Int.toNat 2 = 2 := rfl

lemma toNat_three : Int.toNat 3 = 3 := rfl

lemma sum_map_div {α : Type} [DivisionRing α] (l : List α) (s : α) :
    (l.map (fun w => w / s)).sum = l.sum / s := by
  induction l with
  | nil => simp
  | cons a l ih => simp [ih, add_div]

/-- The enumeration `tapIndices c R` contains exactly the integers `i`
with `|c - i| < R`. -/
lemma mem_tapIndices (c R : ℚ) (i : ℤ) :
    i ∈ tapIndices c R ↔ |c - (i : ℚ)| < R := by
  have lo_le : ∀ z : ℤ, tapLo c R ≤ z ↔ c - R < (z : ℚ) := by
    intro z
    unfold tapLo
    rw [Int.add_one_le_iff, Int.floor_lt]
  have le_hi : ∀ z : ℤ, z ≤ tapHi c R ↔ (z : ℚ) < c + R := by
    intro z
    unfold tapHi
    rw [Int.le_sub_one_iff, Int.lt_ceil]
  unfold tapIndices
  simp only [List.mem_map, List.mem_range]
  constructor
  · rintro ⟨k, hk, rfl⟩
    have h1 : tapLo c R ≤ tapLo c R + (k : ℤ) :=
      le_add_of_nonneg_right (Int.natCast_nonneg k)
    have hk2 : (k : ℤ) < tapHi c R - tapLo c R + 1 := Int.lt_toNat.mp hk
    have h2 : tapLo c R + (k : ℤ) ≤ tapHi c R := by linarith
    have h3 := (lo_le _).mp h1
    have h4 := (le_hi _).mp h2
    rw [abs_lt]
    constructor <;> linarith
  · intro h
    rw [abs_lt] at h
    have h1 : tapLo c R ≤ i := (lo_le i).mpr (by linarith [h.2])
    have h2 : i ≤ tapHi c R := (le_hi i).mpr (by linarith [h.1])
    have hnn : (0 : ℤ) ≤ i - tapLo c R := by linarith
    refine ⟨(i - tapLo c R).toNat, ?_, ?_⟩
    · rw [Int.lt_toNat, Int.toNat_of_nonneg hnn]
      linarith
    · rw [Int.toNat_of_nonneg hnn]
      ring

/-- `planFor` at a valid target index is the tap list paired with the
normalized weights. -/
lemma planFor_getD {α : Type} [Field α] (k : FilterKernel α) (s t j : ℕ)
    (hj : j < t) :
    (planFor k s t).getD j [] =
      (tapIndices (center s t j) (k.radius * rscale s t)).map
        (fun (i : ℤ) => (i, k.eval_discretized ((center s t j - (i : ℚ)) / rscale s t)
            / (rawWeights k s t j).sum)) := by
  unfold planFor
  rw [List.getD_eq_getElem?_getD, List.getElem?_map, List.getElem?_range hj]
  rfl

/-- Each target index's tap count is bounded by `tapsOf`. -/
lemma tapCount_le_tapsOf (r : ℚ) (s t j : ℕ) (hj : j < t) :
    (tapIndices (center s t j) (r * rscale s t)).length ≤ tapsOf r s t := by
  unfold tapsOf
  exact Finset.le_sup
    (f := fun j => (tapIndices (center s t j) (r * rscale s t)).length)
    (Finset.mem_range.mpr hj)

/-- `tapsOf` is attained at some target index. -/
lemma tapsOf_attained (r : ℚ) (s t : ℕ) (ht : 0 < t) :
    ∃ j, j < t ∧
      (tapIndices (center s t j) (r * rscale s t)).length = tapsOf r s t := by
  have h := Finset.exists_mem_eq_sup (α := ℕ) (Finset.range t)
    (Finset.nonempty_range_iff.mpr ht.ne')
    (fun j => (tapIndices (center s t j) (r * rscale s t)).length)
  obtain ⟨j, hj, hsup⟩ := h
  exact ⟨j, Finset.mem_range.mp hj, hsup.symm⟩

/-- C1: for every Resampler built from a kernel of radius `r` and sizes
`s, t > 0`, the plan for target index `j < t` uses the source coordinate
`c(j) = (j + 1/2)·s/t - 1/2` and `scale = max(1, s/t)`, contains exactly
the source indices `i` with `|c(j) - i| < r·scale`, assigns tap `i` the
weight `eval_discretized((c(j) - i)/scale)` normalized so that each
output sample's weights sum to 1 (whenever the raw weight sum is
nonzero), and `taps` is the maximum tap count over all target
indices. -/
theorem C1_resampler_plan {α : Type} [Field α] (k : FilterKernel α)
    (s t j : ℕ) (hs : 0 < s) (ht : 0 < t) (hj : j < t) :
    center s t j = ((j : ℚ) + 1/2) * (s : ℚ) / (t : ℚ) - 1/2 ∧
    rscale s t = max 1 ((s : ℚ) / (t : ℚ)) ∧
    (∀ i : ℤ, i ∈ tapIndices (center s t j) (k.radius * rscale s t) ↔
      |center s t j - (i : ℚ)| < k.radius * rscale s t) ∧
    (planFor k s t).getD j [] =
      (tapIndices (center s t j) (k.radius * rscale s t)).map
        (fun (i : ℤ) => (i, k.eval_discretized ((center s t j - (i : ℚ)) / rscale s t)
            / (rawWeights k s t j).sum)) ∧
    ((rawWeights k s t j).sum ≠ 0 →
      (((planFor k s t).getD j []).map (fun iw => iw.2)).sum = 1) ∧
    (∀ j2, j2 < t →
      (tapIndices (center s t j2) (k.radius * rscale s t)).length ≤
        tapsOf k.radius s t) ∧
    (∃ j2, j2 < t ∧
      (tapIndices (center s t j2) (k.radius * rscale s t)).length =
        tapsOf k.radius s t) := by
  refine ⟨rfl, rfl, fun i => mem_tapIndices _ _ i, planFor_getD k s t j hj,
    ?_, fun j2 hj2 => tapCount_le_tapsOf k.radius s t j2 hj2,
    tapsOf_attained k.radius s t ht⟩
  intro hS
  rw [planFor_getD k s t j hj, List.map_map]
  have : ((fun iw : ℤ × α => iw.2) ∘
      fun i : ℤ => (i, k.eval_discretized ((center s t j - (i : ℚ)) / rscale s t)
        / (rawWeights k s t j).sum)) =
      fun i : ℤ => k.eval_discretized ((center s t j - (i : ℚ)) / rscale s t)
        / (rawWeights k s t j).sum := rfl
  rw [this]
  have : (tapIndices (center s t j) (k.radius * rscale s t)).map
      (fun i : ℤ => k.eval_discretized ((center s t j - (i : ℚ)) / rscale s t)
        / (rawWeights k s t j).sum) =
      (rawWeights k s t j).map (fun w => w / (rawWeights k s t j).sum) := by
    unfold rawWeights
    rw [List.map_map]
    rfl
  rw [this, sum_map_div, div_self hS]

/-- Witness for C1 at the box kernel, sizes 5 → 3, target index 0. -/
theorem C1_resampler_plan_witness :
    0 < 5 ∧ 0 < 3 ∧ 0 < 3 ∧
    (center 5 3 0 = ((0 : ℚ) + 1/2) * (5 : ℚ) / (3 : ℚ) - 1/2 ∧
    rscale 5 3 = max 1 ((5 : ℚ) / (3 : ℚ)) ∧
    (∀ i : ℤ, i ∈ tapIndices (center 5 3 0) (boxKernel.radius * rscale 5 3) ↔
      |center 5 3 0 - (i : ℚ)| < boxKernel.radius * rscale 5 3) ∧
    (planFor boxKernel 5 3).getD 0 [] =
      (tapIndices (center 5 3 0) (boxKernel.radius * rscale 5 3)).map
        (fun (i : ℤ) => (i, boxKernel.eval_discretized
            ((center 5 3 0 - (i : ℚ)) / rscale 5 3) / (rawWeights boxKernel 5 3 0).sum)) ∧
    ((rawWeights boxKernel 5 3 0).sum ≠ 0 →
      (((planFor boxKernel 5 3).getD 0 []).map (fun iw => iw.2)).sum = 1) ∧
    (∀ j2, j2 < 3 →
      (tapIndices (center 5 3 j2) (boxKernel.radius * rscale 5 3)).length ≤
        tapsOf boxKernel.radius 5 3) ∧
    (∃ j2, j2 < 3 ∧
      (tapIndices (center 5 3 j2) (boxKernel.radius * rscale 5 3)).length =
        tapsOf boxKernel.radius 5 3)) :=
  ⟨by norm_num, by norm_num, by norm_num,
    C1_resampler_plan boxKernel 5 3 0 (by norm_num) (by norm_num) (by norm_num)⟩

/-- The test input `linspace(0, 1, 5)`. -/
def a5 : List ℚ := [0, 1/4, 1/2, 3/4, 1]

/-- The box plan for resampling 5 source samples to 3 target samples. -/
lemma boxPlan : planFor boxKernel 5 3 =
    [[(0, 1/2), (1, 1/2)], [(2, 1)], [(3, 1/2), (4, 1/2)]] := by
  norm_num [planFor, rawWeights, tapIndices, tapLo, tapHi, center, rscale,
    boxKernel, boxEval, max_def, ceil_to_floor, List.range_succ, abs,
    toNat_two, toNat_three]

/-- C3: a box-filter Resampler from size 5 to size 3 has `taps() = 2`
and maps `linspace(0,1,5)` to exactly `[0.125, 0.5, 0.875]`. -/
theorem C3_box_downsample :
    (Resampler.make boxKernel 5 3).taps = 2 ∧
    (Resampler.make boxKernel 5 3).resample a5 = [1/8, 1/2, 7/8] := by
  constructor
  · rw [Resampler.make]
    norm_num [tapsOf, tapIndices, tapLo, tapHi, center, rscale, boxKernel,
      max_def, ceil_to_floor, List.range_succ, toNat_two, toNat_three,
      Finset.sup_insert, Finset.range_succ]
  · rw [Resampler.resample]
    simp only [Resampler.make, boxPlan,
      List.map_cons, List.map_nil, List.sum_cons, List.sum_nil]
    simp only [show resolveSample .Clamp a5 5 0 = 0 from rfl,
      show resolveSample .Clamp a5 5 1 = 1/4 from rfl,
      show resolveSample .Clamp a5 5 2 = 1/2 from rfl,
      show resolveSample .Clamp a5 5 3 = 3/4 from rfl,
      show resolveSample .Clamp a5 5 4 = 1 from rfl]
    norm_num

/-- Clamping an in-range index is the identity. -/
lemma wrapClamp_of_lt (n j : ℕ) (hj : j < n) : wrapClamp n (j : ℤ) = j := by
  unfold wrapClamp
  omega

/-- C4: a box-filter Resampler with equal source and target sizes has
`taps() = 1` and reproduces any input buffer of that length exactly. -/
theorem C4_resample_identity (n : ℕ) (hn : 0 < n) (src : List ℚ)
    (hlen : src.length = n) :
    (Resampler.make boxKernel n n).taps = 1 ∧
    (Resampler.make boxKernel n n).resample src = src := by
  have hnQ : (n : ℚ) ≠ 0 := Nat.cast_ne_zero.mpr hn.ne'
  have hscale : rscale n n = 1 := by
    unfold rscale
    rw [div_self hnQ, max_self]
  have hcenter : ∀ j : ℕ, center n n j = (j : ℚ) := by
    intro j
    unfold center
    field_simp
    ring
  have hR : boxKernel.radius * rscale n n = 1/2 := by
    rw [hscale]
    norm_num [boxKernel]
  have htap : ∀ j : ℕ,
      tapIndices (center n n j) (boxKernel.radius * rscale n n) = [(j : ℤ)] := by
    intro j
    rw [hcenter, hR]
    have hfl : ⌊(j : ℚ) - 1/2⌋ = (j : ℤ) - 1 := by
      rw [Int.floor_eq_iff]
      push_cast
      constructor <;> linarith
    have hce : ⌈(j : ℚ) + 1/2⌉ = (j : ℤ) + 1 := by
      rw [Int.ceil_eq_iff]
      push_cast
      constructor <;> linarith
    have hlo : tapLo (j : ℚ) (1/2) = (j : ℤ) := by
      unfold tapLo
      rw [hfl]
      ring
    have hhi : tapHi (j : ℚ) (1/2) = (j : ℤ) := by
      unfold tapHi
      rw [hce]
      ring
    unfold tapIndices
    rw [hlo, hhi]
    have h1 : ((j : ℤ) - (j : ℤ) + 1).toNat = 1 := by omega
    rw [h1, show List.range 1 = [0] from rfl]
    simp
  have hraw : ∀ j : ℕ, rawWeights boxKernel n n j = [1] := by
    intro j
    unfold rawWeights
    rw [htap j, hcenter, hscale]
    simp [boxKernel, boxEval]
  have hplan : planFor boxKernel n n =
      (List.range n).map (fun (j : ℕ) => [((j : ℤ), 1)]) := by
    unfold planFor
    apply List.map_congr_left
    intro j _
    rw [htap j, hraw j, hcenter, hscale]
    simp [boxKernel, boxEval]
  constructor
  · show tapsOf boxKernel.radius n n = 1
    unfold tapsOf
    rw [Finset.sup_congr rfl (fun j _ => by rw [htap j])]
    exact Finset.sup_const (Finset.nonempty_range_iff.mpr hn.ne') 1
  · show (planFor boxKernel n n).map _ = src
    rw [hplan, List.map_map]
    apply List.ext_getElem
    · simpa using hlen.symm
    · intro k h1 h2
      have hkn : k < n := hlen ▸ h2
      simp only [List.getElem_map, List.getElem_range]
      show ([((k : ℤ), (1 : ℚ))].map
        (fun iw => iw.2 * resolveSample .Clamp src n iw.1)).sum = src[k]
      rw [List.map_cons, List.map_nil, List.sum_cons, List.sum_nil]
      show 1 * resolveSample .Clamp src n (k : ℤ) + 0 = src[k]
      rw [one_mul, add_zero]
      show sampleAt src (wrapClamp n (k : ℤ)) = src[k]
      rw [wrapClamp_of_lt n k hkn]
      show src.getD ((k : ℤ)).toNat 0 = src[k]
      rw [Int.toNat_natCast]
      simp [List.getD_eq_getElem?_getD, List.getElem?_eq_getElem h2]

/-- Witness for C4 at size 5 with input `linspace(0,1,5)`. -/
theorem C4_resample_identity_witness :
    0 < 5 ∧ a5.length = 5 ∧
    ((Resampler.make boxKernel 5 5).taps = 1 ∧
     (Resampler.make boxKernel 5 5).resample a5 = a5) :=
  ⟨by norm_num, rfl, C4_resample_identity 5 (by norm_num) a5 rfl⟩

/-- The left-edge tap weight of the boundary-condition test:
`eval(0.8) / (eval(0.8) + eval(0.2) + eval(0.4))` for the tent filter of
radius `0.85`. -/
def w0 : ℚ := tentEval (17/20) (4/5) /
  (tentEval (17/20) (4/5) + tentEval (17/20) (1/5) + tentEval (17/20) (2/5))

/-- The weight `eval(0.4) / (eval(0.8) + eval(0.2) + eval(0.4))` of the
boundary-condition test. -/
def w1 : ℚ := tentEval (17/20) (2/5) /
  (tentEval (17/20) (4/5) + tentEval (17/20) (1/5) + tentEval (17/20) (2/5))

/-- The weight `eval(0.2) / (eval(0.8) + eval(0.2) + eval(0.4))` of the
boundary-condition test. -/
def w2 : ℚ := tentEval (17/20) (1/5) /
  (tentEval (17/20) (4/5) + tentEval (17/20) (1/5) + tentEval (17/20) (2/5))

lemma hw0 : w0 = 1/23 := by norm_num [w0, tentEval, abs, max_def]

lemma hw1 : w1 = 9/23 := by norm_num [w1, tentEval, abs, max_def]

lemma hw2 : w2 = 13/23 := by norm_num [w2, tentEval, abs, max_def]

/-- The tent plan for resampling 5 source samples to 3 target
samples. -/
lemma tentPlan : planFor tentKernel 5 3 =
    [[(-1, 1/23), (0, 13/23), (1, 9/23)], [(1, 5/27), (2, 17/27), (3, 5/27)],
     [(3, 9/23), (4, 13/23), (5, 1/23)]] := by
  norm_num [planFor, rawWeights, tapIndices, tapLo, tapHi, center, rscale,
    tentKernel, tentEval, max_def, ceil_to_floor, List.range_succ, abs,
    toNat_two, toNat_three]

/-- C2 (amended): the widened tent filter (radius 0.85) resampling
`linspace(0,1,5)` from size 5 to size 3 has `taps() = 3` and produces,
under each boundary policy, exactly the literal weighted sums the
repository's test asserts.  Clamp, Zero, One and Repeat follow §4.2's
edge-resolution rules literally (in particular Zero drops the
out-of-range weight without renormalizing, so its first output is
`w1·0.25` only); Mirror resolves an out-of-range index by reflecting it
about the boundary *samples* (`-1 ↦ 1`, `5 ↦ 3`), not by §4.2's
parenthetical rule `-1 ↦ 0`. -/
theorem C2_boundary_policies :
    (Resampler.make tentKernel 5 3).taps = 3 ∧
    wrapMirror 5 (-1) = 1 ∧ wrapMirror 5 5 = 3 ∧
    ((Resampler.make tentKernel 5 3).set_boundary_condition .Clamp).resample a5
      = [w1 * (1/4), 1/2, w1 * (3/4) + w2 * 1 + w0 * 1] ∧
    ((Resampler.make tentKernel 5 3).set_boundary_condition .Zero).resample a5
      = [w1 * (1/4), 1/2, w1 * (3/4) + w2 * 1] ∧
    ((Resampler.make tentKernel 5 3).set_boundary_condition .One).resample a5
      = [w0 * 1 + w1 * (1/4), 1/2, w1 * (3/4) + w2 * 1 + w0 * 1] ∧
    ((Resampler.make tentKernel 5 3).set_boundary_condition .Repeat).resample a5
      = [w0 * 1 + w1 * (1/4), 1/2, w1 * (3/4) + w2 * 1] ∧
    ((Resampler.make tentKernel 5 3).set_boundary_condition .Mirror).resample a5
      = [w0 * (1/4) + w1 * (1/4), 1/2, w1 * (3/4) + w2 * 1 + w0 * (3/4)] := by
  refine ⟨?_, rfl, rfl, ?_, ?_, ?_, ?_, ?_⟩
  · rw [Resampler.make]
    norm_num [tapsOf, tapIndices, tapLo, tapHi, center, rscale, tentKernel,
      max_def, ceil_to_floor, List.range_succ, toNat_two, toNat_three,
      Finset.sup_insert, Finset.range_succ]
  · rw [Resampler.resample]
    simp only [Resampler.make, Resampler.set_boundary_condition, tentPlan,
      List.map_cons, List.map_nil, List.sum_cons, List.sum_nil]
    simp only [show resolveSample .Clamp a5 5 (-1) = 0 from rfl,
      show resolveSample .Clamp a5 5 0 = 0 from rfl,
      show resolveSample .Clamp a5 5 1 = 1/4 from rfl,
      show resolveSample .Clamp a5 5 2 = 1/2 from rfl,
      show resolveSample .Clamp a5 5 3 = 3/4 from rfl,
      show resolveSample .Clamp a5 5 4 = 1 from rfl,
      show resolveSample .Clamp a5 5 5 = 1 from rfl]
    simp only [hw0, hw1, hw2]
    norm_num
  · rw [Resampler.resample]
    simp only [Resampler.make, Resampler.set_boundary_condition, tentPlan,
      List.map_cons, List.map_nil, List.sum_cons, List.sum_nil]
    simp only [show resolveSample .Zero a5 5 (-1) = 0 from rfl,
      show resolveSample .Zero a5 5 0 = 0 from rfl,
      show resolveSample .Zero a5 5 1 = 1/4 from rfl,
      show resolveSample .Zero a5 5 2 = 1/2 from rfl,
      show resolveSample .Zero a5 5 3 = 3/4 from rfl,
      show resolveSample .Zero a5 5 4 = 1 from rfl,
      show resolveSample .Zero a5 5 5 = 0 from rfl]
    simp only [hw0, hw1, hw2]
    norm_num
  · rw [Resampler.resample]
    simp only [Resampler.make, Resampler.set_boundary_condition, tentPlan,
      List.map_cons, List.map_nil, List.sum_cons, List.sum_nil]
    simp only [show resolveSample .One a5 5 (-1) = 1 from rfl,
      show resolveSample .One a5 5 0 = 0 from rfl,
      show resolveSample .One a5 5 1 = 1/4 from rfl,
      show resolveSample .One a5 5 2 = 1/2 from rfl,
      show resolveSample .One a5 5 3 = 3/4 from rfl,
      show resolveSample .One a5 5 4 = 1 from rfl,
      show resolveSample .One a5 5 5 = 1 from rfl]
    simp only [hw0, hw1, hw2]
    norm_num
  · rw [Resampler.resample]
    simp only [Resampler.make, Resampler.set_boundary_condition, tentPlan,
      List.map_cons, List.map_nil, List.sum_cons, List.sum_nil]
    simp only [show resolveSample .Repeat a5 5 (-1) = 1 from rfl,
      show resolveSample .Repeat a5 5 0 = 0 from rfl,
      show resolveSample .Repeat a5 5 1 = 1/4 from rfl,
      show resolveSample .Repeat a5 5 2 = 1/2 from rfl,
      show resolveSample .Repeat a5 5 3 = 3/4 from rfl,
      show resolveSample .Repeat a5 5 4 = 1 from rfl,
      show resolveSample .Repeat a5 5 5 = 0 from rfl]
    simp only [hw0, hw1, hw2]
    norm_num
  · rw [Resampler.resample]
    simp only [Resampler.make, Resampler.set_boundary_condition, tentPlan,
      List.map_cons, List.map_nil, List.sum_cons, List.sum_nil]
    simp only [show resolveSample .Mirror a5 5 (-1) = 1/4 from rfl,
      show resolveSample .Mirror a5 5 0 = 0 from rfl,
      show resolveSample .Mirror a5 5 1 = 1/4 from rfl,
      show resolveSample .Mirror a5 5 2 = 1/2 from rfl,
      show resolveSample .Mirror a5 5 3 = 3/4 from rfl,
      show resolveSample .Mirror a5 5 4 = 1 from rfl,
      show resolveSample .Mirror a5 5 5 = 3/4 from rfl]
    simp only [hw0, hw1, hw2]
    norm_num

/-- C2 counterexample: resolving the Mirror policy by §4.2's literal
rule (`-1 ↦ 0`, `n ↦ n-1`) does NOT reproduce the literal weighted sums
the repository's test asserts for Mirror — the claim that all five
policies yield §4.2's edge-resolution values is false at this concrete
configuration (the rule-based first output is `w1·0.25` where the test
asserts `w0·0.25 + w1·0.25`). -/
theorem C2_mirror_rule_counterexample :
    ((Resampler.make tentKernel 5 3).set_boundary_condition
        .Mirror).resampleSpecMirror a5 ≠
      [w0 * (1/4) + w1 * (1/4), 1/2, w1 * (3/4) + w2 * 1 + w0 * (3/4)] := by
  have hL : ((Resampler.make tentKernel 5 3).set_boundary_condition
      .Mirror).resampleSpecMirror a5 = [9/92, 1/2, 83/92] := by
    rw [Resampler.resampleSpecMirror]
    simp only [Resampler.make, Resampler.set_boundary_condition, tentPlan,
      List.map_cons, List.map_nil, List.sum_cons, List.sum_nil]
    simp only [show resolveSampleWith wrapMirrorSpec .Mirror a5 5 (-1) = 0 from rfl,
      show resolveSampleWith wrapMirrorSpec .Mirror a5 5 0 = 0 from rfl,
      show resolveSampleWith wrapMirrorSpec .Mirror a5 5 1 = 1/4 from rfl,
      show resolveSampleWith wrapMirrorSpec .Mirror a5 5 2 = 1/2 from rfl,
      show resolveSampleWith wrapMirrorSpec .Mirror a5 5 3 = 3/4 from rfl,
      show resolveSampleWith wrapMirrorSpec .Mirror a5 5 4 = 1 from rfl,
      show resolveSampleWith wrapMirrorSpec .Mirror a5 5 5 = 1 from rfl]
    norm_num
  rw [hL]
  simp only [hw0, hw1, hw2]
  intro h
  injection h with h1 _
  norm_num at h1

/-- The Gaussian reference function of the filter-only test:
`G(x) = exp(-2x²) - exp(-8)`. -/
noncomputable def G (x : ℝ) : ℝ := Real.exp (-2 * x^2) - Real.exp (-8)

/-- The test input `linspace(0, 1, 3)` over the reals. -/
noncomputable def a3 : List ℝ := [0, 1/2, 1]

lemma gaussTap0 : tapIndices (center 3 3 0) (gaussianKernel.radius * rscale 3 3) = [-1, 0, 1] := by
  norm_num [tapIndices, tapLo, tapHi, center, rscale, gaussianKernel, max_def,
    ceil_to_floor, List.range_succ, toNat_two, toNat_three]

lemma gaussTap1 : tapIndices (center 3 3 1) (gaussianKernel.radius * rscale 3 3) = [0, 1, 2] := by
  norm_num [tapIndices, tapLo, tapHi, center, rscale, gaussianKernel, max_def,
    ceil_to_floor, List.range_succ, toNat_two, toNat_three]

lemma gaussTap2 : tapIndices (center 3 3 2) (gaussianKernel.radius * rscale 3 3) = [1, 2, 3] := by
  norm_num [tapIndices, tapLo, tapHi, center, rscale, gaussianKernel, max_def,
    ceil_to_floor, List.range_succ, toNat_two, toNat_three]

lemma gaussK_evalD_one : gaussianKernel.eval_discretized 1 = G 1 := by
  show gaussianEval ((1 : ℚ) : ℝ) = G 1
  norm_num [gaussianEval, G, abs]

lemma gaussK_evalD_zero : gaussianKernel.eval_discretized 0 = G 0 := by
  show gaussianEval ((0 : ℚ) : ℝ) = G 0
  norm_num [gaussianEval, G, abs]

lemma gaussK_evalD_neg_one : gaussianKernel.eval_discretized (-1) = G 1 := by
  show gaussianEval ((-1 : ℚ) : ℝ) = G 1
  norm_num [gaussianEval, G, abs]

lemma gaussRaw0 : rawWeights gaussianKernel 3 3 0 = [G 1, G 0, G 1] := by
  unfold rawWeights
  rw [gaussTap0]
  simp only [List.map_cons, List.map_nil]
  norm_num [center, rscale, max_def]
  simp only [gaussK_evalD_one, gaussK_evalD_zero, gaussK_evalD_neg_one]
  exact ⟨trivial, trivial, trivial⟩

lemma gaussRaw1 : rawWeights gaussianKernel 3 3 1 = [G 1, G 0, G 1] := by
  unfold rawWeights
  rw [gaussTap1]
  simp only [List.map_cons, List.map_nil]
  norm_num [center, rscale, max_def]
  simp only [gaussK_evalD_one, gaussK_evalD_zero, gaussK_evalD_neg_one]
  exact ⟨trivial, trivial, trivial⟩

lemma gaussRaw2 : rawWeights gaussianKernel 3 3 2 = [G 1, G 0, G 1] := by
  unfold rawWeights
  rw [gaussTap2]
  simp only [List.map_cons, List.map_nil]
  norm_num [center, rscale, max_def]
  simp only [gaussK_evalD_one, gaussK_evalD_zero, gaussK_evalD_neg_one]
  exact ⟨trivial, trivial, trivial⟩

lemma gaussSum0 : (rawWeights gaussianKernel 3 3 0).sum = G 0 + 2 * G 1 := by
  rw [gaussRaw0]; simp; ring

lemma gaussSum1 : (rawWeights gaussianKernel 3 3 1).sum = G 0 + 2 * G 1 := by
  rw [gaussRaw1]; simp; ring

lemma gaussSum2 : (rawWeights gaussianKernel 3 3 2).sum = G 0 + 2 * G 1 := by
  rw [gaussRaw2]; simp; ring

lemma gaussOut : ((Resampler.make gaussianKernel 3 3).set_boundary_condition .Repeat).resample a3 =
    [(G 0 * 0 + G 1 * (1/2 + 1)) / (G 0 + 2 * G 1),
     (G 0 * (1/2) + G 1 * (0 + 1)) / (G 0 + 2 * G 1),
     (G 0 * 1 + G 1 * (0 + 1/2)) / (G 0 + 2 * G 1)] := by
  rw [Resampler.resample]
  simp only [Resampler.make, Resampler.set_boundary_condition]
  unfold planFor
  rw [show List.range 3 = [0, 1, 2] from rfl]
  simp only [List.map_cons, List.map_nil]
  rw [gaussTap0, gaussTap1, gaussTap2]
  simp only [List.map_cons, List.map_nil, List.sum_cons, List.sum_nil]
  simp only [show resolveSample .Repeat a3 3 (-1) = 1 from rfl,
    show resolveSample .Repeat a3 3 0 = 0 from rfl,
    show resolveSample .Repeat a3 3 1 = 1/2 from rfl,
    show resolveSample .Repeat a3 3 2 = 1 from rfl,
    show resolveSample .Repeat a3 3 3 = 0 from rfl]
  rw [gaussSum0, gaussSum1, gaussSum2]
  norm_num [center, rscale, max_def]
  simp only [gaussK_evalD_one, gaussK_evalD_zero, gaussK_evalD_neg_one]
  refine ⟨by ring, by ring, by ring⟩

/-- C5: the default Gaussian filter resampling 3 samples to 3 samples
under Repeat has `taps() = 3`, and each output equals the circular
convolution `(G(0)·a[k] + G(1)·(other two samples)) / (G(0) + 2·G(1))`
with `G(x) = exp(-2x²) - exp(-8)`, within absolute tolerance `1e-4`
(here the agreement is exact), for input `a = linspace(0,1,3)`. -/
theorem C5_gaussian_filter_only :
    ((Resampler.make gaussianKernel 3 3).set_boundary_condition .Repeat).taps = 3 ∧
    |(((Resampler.make gaussianKernel 3 3).set_boundary_condition .Repeat).resample a3).getD 0 0
      - (G 0 * a3.getD 0 0 + G 1 * (a3.getD 1 0 + a3.getD 2 0)) / (G 0 + 2 * G 1)| ≤ 1/10000 ∧
    |(((Resampler.make gaussianKernel 3 3).set_boundary_condition .Repeat).resample a3).getD 1 0
      - (G 0 * a3.getD 1 0 + G 1 * (a3.getD 0 0 + a3.getD 2 0)) / (G 0 + 2 * G 1)| ≤ 1/10000 ∧
    |(((Resampler.make gaussianKernel 3 3).set_boundary_condition .Repeat).resample a3).getD 2 0
      - (G 0 * a3.getD 2 0 + G 1 * (a3.getD 0 0 + a3.getD 1 0)) / (G 0 + 2 * G 1)| ≤ 1/10000 := by
  refine ⟨?_, ?_, ?_, ?_⟩
  · show tapsOf gaussianKernel.radius 3 3 = 3
    norm_num [tapsOf, tapIndices, tapLo, tapHi, center, rscale, gaussianKernel,
      max_def, ceil_to_floor, List.range_succ, toNat_two, toNat_three,
      Finset.sup_insert, Finset.range_succ]
  · rw [gaussOut]
    simp only [show a3.getD 0 0 = 0 from rfl, show a3.getD 1 0 = 1/2 from rfl,
      show a3.getD 2 0 = 1 from rfl]
    rw [show ([(G 0 * 0 + G 1 * (1/2 + 1)) / (G 0 + 2 * G 1),
        (G 0 * (1/2) + G 1 * (0 + 1)) / (G 0 + 2 * G 1),
        (G 0 * 1 + G 1 * (0 + 1/2)) / (G 0 + 2 * G 1)].getD 0 0)
      = (G 0 * 0 + G 1 * (1/2 + 1)) / (G 0 + 2 * G 1) from rfl]
    rw [sub_self, abs_zero]
    norm_num
  · rw [gaussOut]
    simp only [show a3.getD 0 0 = 0 from rfl, show a3.getD 1 0 = 1/2 from rfl,
      show a3.getD 2 0 = 1 from rfl]
    rw [show ([(G 0 * 0 + G 1 * (1/2 + 1)) / (G 0 + 2 * G 1),
        (G 0 * (1/2) + G 1 * (0 + 1)) / (G 0 + 2 * G 1),
        (G 0 * 1 + G 1 * (0 + 1/2)) / (G 0 + 2 * G 1)].getD 1 0)
      = (G 0 * (1/2) + G 1 * (0 + 1)) / (G 0 + 2 * G 1) from rfl]
    rw [sub_self, abs_zero]
    norm_num
  · rw [gaussOut]
    simp only [show a3.getD 0 0 = 0 from rfl, show a3.getD 1 0 = 1/2 from rfl,
      show a3.getD 2 0 = 1 from rfl]
    rw [show ([(G 0 * 0 + G 1 * (1/2 + 1)) / (G 0 + 2 * G 1),
        (G 0 * (1/2) + G 1 * (0 + 1)) / (G 0 + 2 * G 1),
        (G 0 * 1 + G 1 * (0 + 1/2)) / (G 0 + 2 * G 1)].getD 2 0)
      = (G 0 * 1 + G 1 * (0 + 1/2)) / (G 0 + 2 * G 1) from rfl]
    rw [sub_self, abs_zero]
    norm_num

lemma evalDiscretized_zero_outside (r : ℝ) (f : ℝ → ℝ) (x : ℝ)
    (h : r ≤ |x|) : evalDiscretized r f x = 0 := by
  unfold evalDiscretized
  rw [if_neg (not_lt.mpr h)]

lemma sincR_neg (t : ℝ) : sincR (-t) = sincR t := by
  unfold sincR
  rcases eq_or_ne t 0 with h | h
  · rw [h, neg_zero]
  · rw [if_neg (neg_ne_zero.mpr h), if_neg h, Real.sin_neg, neg_div_neg_eq]

/-- C6: for every filter kind, `eval` vanishes at and beyond the
support radius, `eval_discretized` vanishes there exactly as well, and
`eval` is an even function. -/
theorem C6_kernel_zero_outside_and_even :
    (∀ r x : ℝ, (r ≤ |x| → boxEval r x = 0 ∧
        evalDiscretized r (boxEval r) x = 0) ∧
      boxEval r (-x) = boxEval r x) ∧
    (∀ r x : ℝ, (0 < r → r ≤ |x| → tentEval r x = 0 ∧
        evalDiscretized r (tentEval r) x = 0) ∧
      tentEval r (-x) = tentEval r x) ∧
    (∀ x : ℝ, ((2:ℝ) ≤ |x| → gaussianEval x = 0 ∧
        evalDiscretized 2 gaussianEval x = 0) ∧
      gaussianEval (-x) = gaussianEval x) ∧
    (∀ tau x : ℝ, (tau ≤ |x| → lanczosEval tau x = 0 ∧
        evalDiscretized tau (lanczosEval tau) x = 0) ∧
      lanczosEval tau (-x) = lanczosEval tau x) ∧
    (∀ B C x : ℝ, ((2:ℝ) ≤ |x| → mitchellEval B C x = 0 ∧
        evalDiscretized 2 (mitchellEval B C) x = 0) ∧
      mitchellEval B C (-x) = mitchellEval B C x) ∧
    (∀ x : ℝ, ((2:ℝ) ≤ |x| → catmullRomEval x = 0 ∧
        evalDiscretized 2 catmullRomEval x = 0) ∧
      catmullRomEval (-x) = catmullRomEval x) := by
  have hmz : ∀ B C x : ℝ, (2:ℝ) ≤ |x| → mitchellEval B C x = 0 := by
    intro B C x h
    unfold mitchellEval
    rw [if_neg (by push_neg; linarith), if_neg (not_lt.mpr h)]
  have hme : ∀ B C x : ℝ, mitchellEval B C (-x) = mitchellEval B C x := by
    intro B C x
    unfold mitchellEval
    rw [abs_neg]
  refine ⟨?_, ?_, ?_, ?_, ?_, ?_⟩
  · intro r x
    constructor
    · intro h
      refine ⟨?_, evalDiscretized_zero_outside r _ x h⟩
      unfold boxEval
      rw [if_neg (not_lt.mpr h)]
    · unfold boxEval
      rw [abs_neg]
  · intro r x
    constructor
    · intro hr h
      refine ⟨?_, evalDiscretized_zero_outside r _ x h⟩
      unfold tentEval
      apply max_eq_left
      have h1 : (1:ℝ) ≤ |x| / r := (one_le_div hr).mpr h
      linarith
    · unfold tentEval
      rw [abs_neg]
  · intro x
    constructor
    · intro h
      refine ⟨?_, evalDiscretized_zero_outside 2 _ x h⟩
      unfold gaussianEval
      rw [if_neg (not_lt.mpr h)]
    · simp [gaussianEval, abs_neg, neg_sq]
  · intro tau x
    constructor
    · intro h
      refine ⟨?_, evalDiscretized_zero_outside tau _ x h⟩
      unfold lanczosEval
      rw [if_neg (not_lt.mpr h)]
    · unfold lanczosEval
      rw [abs_neg, show Real.pi * -x = -(Real.pi * x) from by ring,
        neg_div, sincR_neg, sincR_neg]
  · intro B C x
    exact ⟨fun h => ⟨hmz B C x h, evalDiscretized_zero_outside 2 _ x h⟩,
      hme B C x⟩
  · intro x
    exact ⟨fun h => ⟨hmz 0 (1/2) x h, evalDiscretized_zero_outside 2 _ x h⟩,
      hme 0 (1/2) x⟩

/-- Witness for C6: the tent filter of radius 1 at `x = 2` and the
Gaussian at `x = -3` vanish. -/
theorem C6_kernel_zero_outside_and_even_witness :
    ((0:ℝ) < 1 ∧ (1:ℝ) ≤ |(2:ℝ)| ∧ (2:ℝ) ≤ |(-3:ℝ)|) ∧
    tentEval (1:ℝ) 2 = 0 ∧ evalDiscretized (1:ℝ) (tentEval 1) 2 = 0 ∧
    gaussianEval (-3) = 0 :=
  ⟨⟨by norm_num, by norm_num, by norm_num⟩,
    ((C6_kernel_zero_outside_and_even.2.1 1 2).1 (by norm_num) (by norm_num)).1,
    ((C6_kernel_zero_outside_and_even.2.1 1 2).1 (by norm_num) (by norm_num)).2,
    ((C6_kernel_zero_outside_and_even.2.2.1 (-3)).1 (by norm_num)).1⟩

/-- An operation on a live Resampler: change the boundary policy, or
run a resample writing into the destination buffer. -/
inductive ResamplerOp (α : Type) : Type
  | setBC (p : FilterBoundaryCondition)
  | run (src : List α)

/-- One step of the Resampler state machine; the state is the
Resampler paired with the destination buffer. -/
def stepOp {α : Type} [Field α] (st : Resampler α × List α)
    (op : ResamplerOp α) : Resampler α × List α :=
  match op with
  | .setBC p => (st.1.set_boundary_condition p, st.2)
  | .run src => (st.1, st.1.resample src)

/-- C7: `set_boundary_condition` changes only the active policy (the
kernel, sizes, plan and taps are untouched), `resample` changes nothing
but the destination buffer, and across any sequence of
`set_boundary_condition` and `resample` calls the plan and `taps()` of
the Resampler are invariant. -/
theorem C7_boundary_condition_frame {α : Type} [Field α] :
    (∀ (r : Resampler α) (p : FilterBoundaryCondition),
      (r.set_boundary_condition p).kernel = r.kernel ∧
      (r.set_boundary_condition p).source_size = r.source_size ∧
      (r.set_boundary_condition p).target_size = r.target_size ∧
      (r.set_boundary_condition p).plan = r.plan ∧
      (r.set_boundary_condition p).taps = r.taps ∧
      (r.set_boundary_condition p).bc = p) ∧
    (∀ (st : Resampler α × List α) (src : List α),
      (stepOp st (.run src)).1 = st.1) ∧
    (∀ (ops : List (ResamplerOp α)) (st : Resampler α × List α),
      (ops.foldl stepOp st).1.plan = st.1.plan ∧
      (ops.foldl stepOp st).1.taps = st.1.taps) := by
  refine ⟨fun r p => ⟨rfl, rfl, rfl, rfl, rfl, rfl⟩, fun st src => rfl, ?_⟩
  intro ops
  induction ops with
  | nil => exact fun st => ⟨rfl, rfl⟩
  | cons op rest ih =>
    intro st
    rw [List.foldl_cons]
    refine ⟨?_, ?_⟩
    · rw [(ih (stepOp st op)).1]
      cases op with
      | setBC p => rfl
      | run src => rfl
    · rw [(ih (stepOp st op)).2]
      cases op with
      | setBC p => rfl
      | run src => rfl

end RF

namespace Cfg

/-- A build-configuration entry of `mitsuba.conf`: its `float` type
string and its `spectrum` type string (whose `Float` placeholder gets
substituted). -/
structure ConfEntry : Type where
  float : String
  spectrum : String
deriving DecidableEq

/-- The parsed `mitsuba.conf`: the ordered `enabled` name list, the
named configuration entries, and the optional `python-default` name
(`configurations.get("python-default", "")`). -/
structure Conf : Type where
  enabled : List String
  entries : List (String × ConfEntry)
  pythonDefault : Option String
deriving DecidableEq

/-- Dictionary lookup `configurations[name]`; `none` models
`name not in configurations`. -/
def lookupEntry (c : Conf) (n : String) : Option ConfEntry :=
  (c.entries.find? (fun e => e.1 == n)).map (fun e => e.2)

/-- Character-list head match (structural, for the substring test). -/
def charsStartWith : List Char → List Char → Bool
  | [], _ => true
  | _ :: _, [] => false
  | p :: ps, c :: cs => p == c && charsStartWith ps cs

/-- Structural substring occurrence test over character lists. -/
def charsContain (needle : List Char) : List Char → Bool
  | [] => needle.isEmpty
  | c :: cs => charsStartWith needle (c :: cs) || charsContain needle cs

/-- Python's `needle in hay` substring test. -/
def containsStr (hay needle : String) : Bool :=
  charsContain needle.data hay.data

/-- `item["spectrum"].replace("Float", item["float"])`. -/
def variantSpectrum (e : ConfEntry) : String :=
  e.spectrum.replace "Float" e.float

/-- The distinct `ValueError`s `configure.py` can raise, one
constructor per `raise` site (each carries the message shown):
`unknownConfig n` = `mitsuba.conf: "enabled" refers to an unknown
configuration "n"`; `noEnabled` = `there must be at least one enabled
build configuration!`; `defaultNotEnabled` = `the "default" mode is not
part of the "enabled" list!`; `pythonDefaultNotEnabled` = `the
"python-default" mode is not part of the "enabled" list!`. -/
inductive ConfError : Type
  | unknownConfig (n : String)
  | noEnabled
  | defaultNotEnabled
  | pythonDefaultNotEnabled
deriving DecidableEq

/-- The `enabled` extraction loop of `configure.py` `__main__`: for
each name of the `enabled` list in order, raise on a name missing from
the configuration, skip `cuda`-named variants on Darwin, and otherwise
append `(name, float, spectrum-with-Float-substituted)`. -/
def buildEnabled (darwin : Bool) (c : Conf) :
    List String → Except ConfError (List (String × String × String))
  | [] => .ok []
  | n :: rest =>
    match lookupEntry c n with
    | none => .error (.unknownConfig n)
    | some e =>
      if darwin && containsStr n "cuda" then buildEnabled darwin c rest
      else
        match buildEnabled darwin c rest with
        | .error msg => .error msg
        | .ok tail => .ok ((n, e.float, variantSpectrum e) :: tail)

/-- The plain data exposed by the two generated artifacts: the C++
descriptor `include/mitsuba/core/config.h` (`variants`,
`defaultVariant`) and the companion `python/mitsuba/config.py`
(`pyVariants`, `pyDefaultVariant`, `pyExecutable`). -/
structure GenOutput : Type where
  variants : List String
  defaultVariant : String
  pyVariants : List String
  pyDefaultVariant : String
  pyExecutable : String
deriving DecidableEq

/-- The validation and emission logic of `configure.py` `__main__`:
extract the enabled configurations, require at least one, pick the
first as C++ default, check the C++ default and a configured nonempty
`python-default` against the `enabled` name list, and emit the two
artifacts' data. -/
def configure (darwin : Bool) (pyExe : String) (c : Conf) :
    Except ConfError GenOutput :=
  match buildEnabled darwin c c.enabled with
  | .error msg => .error msg
  | .ok enabled =>
    if enabled.isEmpty then .error .noEnabled
    else
      let dv := (enabled.headD ("", "", "")).1
      let dvp := c.pythonDefault.getD ""
      if !(c.enabled.contains dv) then .error .defaultNotEnabled
      else if dvp != "" && !(c.enabled.contains dvp) then
        .error .pythonDefaultNotEnabled
      else .ok ⟨enabled.map (fun v => v.1), dv,
        enabled.map (fun v => v.1), dvp, pyExe⟩

/-- The enabled names surviving the Darwin cuda exclusion. -/
def filteredNames (darwin : Bool) (c : Conf) : List String :=
  c.enabled.filter (fun n => !(darwin && containsStr n "cuda"))

/-- Whether the enabled list references a name with no configuration
entry. -/
def refsUnknown (c : Conf) : Bool :=
  c.enabled.any (fun n => (lookupEntry c n).isNone)

end Cfg
namespace Cfg

/-- If every enabled name is known, extraction succeeds and the emitted
variant names are exactly the Darwin-filtered enabled names. -/
lemma buildEnabled_known (darwin : Bool) (c : Conf) :
    ∀ l : List String, (∀ n ∈ l, lookupEntry c n ≠ none) →
      ∃ res, buildEnabled darwin c l = .ok res ∧
        res.map (fun v => v.1) =
          l.filter (fun n => !(darwin && containsStr n "cuda")) := by
  intro l
  induction l with
  | nil => intro _; exact ⟨[], rfl, rfl⟩
  | cons n rest ih =>
    intro hall
    obtain ⟨tail, htail, hnames⟩ := ih (fun m hm => hall m (List.mem_cons_of_mem n hm))
    cases hl : lookupEntry c n with
    | none => exact absurd hl (hall n (List.mem_cons_self n rest))
    | some e =>
      by_cases hd : (darwin && containsStr n "cuda") = true
      · refine ⟨tail, ?_, ?_⟩
        · rw [buildEnabled, hl]
          simp only [hd]
          exact htail
        · rw [List.filter_cons]
          simpa [hd] using hnames
      · rw [Bool.not_eq_true] at hd
        refine ⟨(n, e.float, variantSpectrum e) :: tail, ?_, ?_⟩
        · rw [buildEnabled, hl]
          simp [hd, htail]
        · rw [List.filter_cons, List.map_cons, hnames]
          simp [hd]

/-- If some enabled name is unknown, extraction raises the
unknown-configuration error. -/
lemma buildEnabled_unknown (darwin : Bool) (c : Conf) :
    ∀ l : List String, (∃ n ∈ l, lookupEntry c n = none) →
      ∃ m, buildEnabled darwin c l = .error (.unknownConfig m) := by
  intro l
  induction l with
  | nil => rintro ⟨n, hn, _⟩; cases hn
  | cons n rest ih =>
    rintro ⟨m, hm, hnone⟩
    cases hl : lookupEntry c n with
    | none => exact ⟨n, by rw [buildEnabled, hl]⟩
    | some e =>
      have hmr : m ∈ rest := by
        rcases List.mem_cons.mp hm with h | h
        · subst h; rw [hl] at hnone; cases hnone
        · exact h
      obtain ⟨m2, hm2⟩ := ih ⟨m, hmr, hnone⟩
      by_cases hd : (darwin && containsStr n "cuda") = true
      · exact ⟨m2, by rw [buildEnabled, hl]; simp only [hd]; exact hm2⟩
      · rw [Bool.not_eq_true] at hd
        refine ⟨m2, ?_⟩
        rw [buildEnabled, hl]
        simp [hd, hm2]

end Cfg

namespace Cfg

/-- Extraction is deterministic: a successful run's variant names are
the Darwin-filtered enabled names. -/
lemma buildEnabled_ok_names (darwin : Bool) (c : Conf) (l : List String)
    (res : List (String × String × String))
    (h : buildEnabled darwin c l = .ok res) :
    res.map (fun v => v.1) =
      l.filter (fun n => !(darwin && containsStr n "cuda")) := by
  by_cases hall : ∀ n ∈ l, lookupEntry c n ≠ none
  · obtain ⟨res2, h2, hn⟩ := buildEnabled_known darwin c l hall
    rw [h] at h2
    cases h2
    exact hn
  · push_neg at hall
    obtain ⟨n, hn, hnone⟩ := hall
    obtain ⟨m, hm⟩ := buildEnabled_unknown darwin c l ⟨n, hn, hnone⟩
    rw [h] at hm
    cases hm

/-- Every extraction error is an unknown-configuration error. -/
lemma buildEnabled_error_shape (darwin : Bool) (c : Conf) :
    ∀ (l : List String) (msg : ConfError),
      buildEnabled darwin c l = .error msg → ∃ n, msg = .unknownConfig n := by
  intro l
  induction l with
  | nil => intro msg h; cases h
  | cons n rest ih =>
    intro msg h
    rw [buildEnabled] at h
    cases hl : lookupEntry c n with
    | none =>
      rw [hl] at h
      cases h
      exact ⟨n, rfl⟩
    | some e =>
      rw [hl] at h
      by_cases hd : (darwin && containsStr n "cuda") = true
      · simp only [hd] at h
        exact ih msg h
      · rw [Bool.not_eq_true] at hd
        simp only [hd] at h
        cases hrec : buildEnabled darwin c rest with
        | error m2 =>
          rw [hrec] at h
          simp at h
          subst h
          exact ih m2 hrec
        | ok tail =>
          rw [hrec] at h
          simp at h

/-- The head of the extracted list names the head of the filtered
enabled names. -/
lemma headD_name (res : List (String × String × String)) :
    (res.headD ("", "", "")).1 = (res.map (fun v => v.1)).headD "" := by
  cases res <;> rfl

/-- The C++ default variant (the first extracted name) is always a
member of the `enabled` list. -/
lemma default_mem (darwin : Bool) (c : Conf)
    (res : List (String × String × String))
    (h : buildEnabled darwin c c.enabled = .ok res)
    (hne : res.isEmpty = false) :
    c.enabled.contains ((res.headD ("", "", "")).1) = true := by
  have hn := buildEnabled_ok_names darwin c c.enabled res h
  cases res with
  | nil => cases hne
  | cons v vs =>
    have hv1 : v.1 ∈ (v :: vs).map (fun w : String × String × String => w.1) :=
      List.mem_map.mpr ⟨v, List.mem_cons_self v vs, rfl⟩
    rw [hn] at hv1
    have hv2 : v.1 ∈ c.enabled := List.mem_of_mem_filter hv1
    show c.enabled.elem v.1 = true
    exact List.elem_iff.mpr hv2

end Cfg

namespace Cfg

/-- C8 (amended): the generator fails exactly when the enabled list
references an undefined configuration, when the enabled list is empty
after the Darwin cuda exclusion (covering both an empty `enabled` list
and an exclusion that empties it), or when a nonempty configured
`python-default` is not in the enabled list; the C++ default check
itself can never fire. -/
theorem C8_error_conditions (darwin : Bool) (pyExe : String) (c : Conf) :
    (configure darwin pyExe c).isOk = false ↔
      (refsUnknown c = true ∨ filteredNames darwin c = [] ∨
        (c.pythonDefault.getD "" ≠ "" ∧
          c.enabled.contains (c.pythonDefault.getD "") = false)) := by
  rw [configure]
  cases hbe : buildEnabled darwin c c.enabled with
  | error msg =>
    have hunk : refsUnknown c = true := by
      by_contra hno
      rw [Bool.not_eq_true, refsUnknown] at hno
      have hall : ∀ n ∈ c.enabled, lookupEntry c n ≠ none := by
        intro n hn
        intro hnone
        have : c.enabled.any (fun n => (lookupEntry c n).isNone) = true :=
          List.any_eq_true.mpr ⟨n, hn, by rw [hnone]; rfl⟩
        rw [hno] at this
        cases this
      obtain ⟨res, hres, _⟩ := buildEnabled_known darwin c c.enabled hall
      rw [hbe] at hres
      cases hres
    constructor
    · intro _
      exact Or.inl hunk
    · intro _
      rfl
  | ok res =>
    have hnames := buildEnabled_ok_names darwin c c.enabled res hbe
    have hknown : refsUnknown c = false := by
      by_contra hyes
      rw [Bool.not_eq_false, refsUnknown, List.any_eq_true] at hyes
      obtain ⟨n, hn, hnone⟩ := hyes
      obtain ⟨m, hm⟩ := buildEnabled_unknown darwin c c.enabled
        ⟨n, hn, Option.isNone_iff_eq_none.mp hnone⟩
      rw [hbe] at hm
      cases hm
    by_cases hres : res.isEmpty = true
    · have hres2 : res = [] := List.isEmpty_iff.mp hres
      have hfil : filteredNames darwin c = [] := by
        rw [filteredNames, ← hnames, hres2]
        rfl
      simp only [hres, if_true]
      constructor
      · intro _
        exact Or.inr (Or.inl hfil)
      · intro _
        rfl
    · rw [Bool.not_eq_true] at hres
      have hfilne : filteredNames darwin c ≠ [] := by
        rw [filteredNames, ← hnames]
        cases res with
        | nil => cases hres
        | cons v vs => simp
      have hdv := default_mem darwin c res hbe hres
      simp only [hres, hdv, Bool.not_true, Bool.false_eq_true, if_false]
      cases hb : (c.pythonDefault.getD "" != "" &&
          !(c.enabled.contains (c.pythonDefault.getD ""))) with
      | true =>
        rw [Bool.and_eq_true] at hb
        simp only [if_true]
        constructor
        · intro _
          refine Or.inr (Or.inr ⟨?_, ?_⟩)
          · exact bne_iff_ne.mp hb.1
          · simpa using hb.2
        · intro _
          rfl
      | false =>
        simp only [Bool.false_eq_true, if_false]
        constructor
        · intro habs
          cases habs
        · intro hdisj
          rcases hdisj with h1 | h2 | h3
          · rw [hknown] at h1
            cases h1
          · exact absurd h2 hfilne
          · rw [Bool.and_eq_false_iff] at hb
            rcases hb with hb | hb
            · have hx := bne_iff_ne.mpr h3.1
              rw [hb] at hx
              cases hx
            · have hx : c.enabled.contains (c.pythonDefault.getD "") = true := by
                simpa using hb
              rw [h3.2] at hx
              cases hx

end Cfg

namespace Cfg

/-- A configuration with a single enabled entry `a` whose
`python-default` names the un-enabled `b`. -/
def pyDefaultConf : Conf :=
  ⟨["a"], [("a", ⟨"float", "Color<Float, 3>"⟩)], some "b"⟩

/-- A configuration with a single enabled entry `a` and no
`python-default`. -/
def plainConf : Conf :=
  ⟨["a"], [("a", ⟨"float", "Color<Float, 3>"⟩)], none⟩

/-- The output of the successful run on `plainConf`. -/
def plainOut : GenOutput :=
  ⟨["a"], "a", ["a"], "", "/usr/bin/python3"⟩

/-- C8 counterexample: this run raises a configuration error (its
`python-default` is not enabled) although none of the claim's four
conditions holds: every enabled name is defined, the enabled list is
nonempty, the C++ default `a` (head of the filtered list) is in the
enabled list, and no Darwin exclusion applies. -/
theorem C8_counterexample :
    (configure false "/usr/bin/python3" pyDefaultConf).isOk = false ∧
    refsUnknown pyDefaultConf = false ∧
    pyDefaultConf.enabled ≠ [] ∧
    filteredNames false pyDefaultConf = ["a"] ∧
    (filteredNames false pyDefaultConf).headD "" = "a" ∧
    pyDefaultConf.enabled.contains "a" = true := by
  refine ⟨rfl, rfl, ?_, rfl, rfl, rfl⟩
  intro h
  cases h

/-- C9 counterexample: a successful run on a configuration without
`python-default` emits `a` as the C++ default variant but the empty
string as the scripting artifact's default variant — the two defaults
differ. -/
theorem C9_counterexample :
    configure false "/usr/bin/python3" plainConf = .ok plainOut ∧
    plainOut.defaultVariant = "a" ∧
    plainOut.pyDefaultVariant = "" ∧
    plainOut.pyDefaultVariant ≠ plainOut.defaultVariant := by
  refine ⟨rfl, rfl, rfl, ?_⟩
  decide

/-- C9 (amended): the scripting-language artifact exposes the same
enabled variant name list as the C++ descriptor and the host executable
path, but its default variant is the separately configured
`python-default` (empty when unset), not the C++ descriptor's
default. -/
theorem C9_artifact_data (darwin : Bool) (pyExe : String) (c : Conf)
    (out : GenOutput) (h : configure darwin pyExe c = .ok out) :
    out.pyVariants = out.variants ∧ out.pyExecutable = pyExe ∧
    out.pyDefaultVariant = c.pythonDefault.getD "" := by
  rw [configure] at h
  cases hbe : buildEnabled darwin c c.enabled with
  | error msg =>
    rw [hbe] at h
    cases h
  | ok res =>
    rw [hbe] at h
    by_cases hres : res.isEmpty = true
    · simp only [hres, if_true] at h
      cases h
    · rw [Bool.not_eq_true] at hres
      simp only [hres, Bool.false_eq_true, if_false] at h
      by_cases hd : (c.enabled.contains ((res.headD ("", "", "")).1)) = true
      · simp only [hd, Bool.not_true, Bool.false_eq_true, if_false] at h
        by_cases hb : (c.pythonDefault.getD "" != "" &&
            !(c.enabled.contains (c.pythonDefault.getD ""))) = true
        · simp only [hb, if_true] at h
          cases h
        · rw [Bool.not_eq_true] at hb
          simp only [hb, Bool.false_eq_true, if_false] at h
          cases h
          exact ⟨rfl, rfl, rfl⟩
      · rw [Bool.not_eq_true] at hd
        simp only [hd, Bool.not_false, if_true] at h
        cases h

/-- Witness for C9 (amended) on the `plainConf` run. -/
theorem C9_artifact_data_witness :
    configure false "/usr/bin/python3" plainConf = .ok plainOut ∧
    (plainOut.pyVariants = plainOut.variants ∧
     plainOut.pyExecutable = "/usr/bin/python3" ∧
     plainOut.pyDefaultVariant = plainConf.pythonDefault.getD "") :=
  ⟨rfl, C9_artifact_data false "/usr/bin/python3" plainConf plainOut rfl⟩

/-- C10: the C++ default variant of every successful run is the first
entry of the enabled list after the Darwin cuda exclusion, and the
`default not in enabled` error branch is unreachable: no run ever
returns that error (the analogous check can only fire for the
separately configured python-default). -/
theorem C10_default_is_first (darwin : Bool) (pyExe : String) (c : Conf) :
    (∀ e, configure darwin pyExe c = .error e →
      e ≠ ConfError.defaultNotEnabled) ∧
    (∀ out, configure darwin pyExe c = .ok out →
      out.defaultVariant = (filteredNames darwin c).headD "") := by
  constructor
  · intro e h
    rw [configure] at h
    cases hbe : buildEnabled darwin c c.enabled with
    | error msg =>
      rw [hbe] at h
      cases h
      obtain ⟨n, hn⟩ := buildEnabled_error_shape darwin c c.enabled e hbe
      rw [hn]
      intro hx
      cases hx
    | ok res =>
      rw [hbe] at h
      by_cases hres : res.isEmpty = true
      · simp only [hres, if_true] at h
        cases h
        intro hx
        cases hx
      · rw [Bool.not_eq_true] at hres
        simp only [hres, Bool.false_eq_true, if_false] at h
        have hdv := default_mem darwin c res hbe hres
        simp only [hdv, Bool.not_true, Bool.false_eq_true, if_false] at h
        by_cases hb : (c.pythonDefault.getD "" != "" &&
            !(c.enabled.contains (c.pythonDefault.getD ""))) = true
        · simp only [hb, if_true] at h
          cases h
          intro hx
          cases hx
        · rw [Bool.not_eq_true] at hb
          simp only [hb, Bool.false_eq_true, if_false] at h
          cases h
  · intro out h
    rw [configure] at h
    cases hbe : buildEnabled darwin c c.enabled with
    | error msg =>
      rw [hbe] at h
      cases h
    | ok res =>
      rw [hbe] at h
      by_cases hres : res.isEmpty = true
      · simp only [hres, if_true] at h
        cases h
      · rw [Bool.not_eq_true] at hres
        simp only [hres, Bool.false_eq_true, if_false] at h
        have hdv := default_mem darwin c res hbe hres
        simp only [hdv, Bool.not_true, Bool.false_eq_true, if_false] at h
        have hnames := buildEnabled_ok_names darwin c c.enabled res hbe
        by_cases hb : (c.pythonDefault.getD "" != "" &&
            !(c.enabled.contains (c.pythonDefault.getD ""))) = true
        · simp only [hb, if_true] at h
          cases h
        · rw [Bool.not_eq_true] at hb
          simp only [hb, Bool.false_eq_true, if_false] at h
          cases h
          rw [headD_name res, hnames]
          rfl

/-- A configuration whose enabled list references the undefined `x`. -/
def badConf : Conf := ⟨["x"], [], none⟩

/-- Witness for C10: a failing run returns the unknown-configuration
error, which is not the default-not-enabled error; and the `plainConf`
run's C++ default is the head of its filtered enabled list. -/
theorem C10_default_is_first_witness :
    (configure false "/usr/bin/python3" badConf =
      .error (ConfError.unknownConfig "x") ∧
     ConfError.unknownConfig "x" ≠ ConfError.defaultNotEnabled) ∧
    (configure false "/usr/bin/python3" plainConf = .ok plainOut ∧
     plainOut.defaultVariant = (filteredNames false plainConf).headD "") :=
  ⟨⟨rfl, (C10_default_is_first false "/usr/bin/python3" badConf).1
      (ConfError.unknownConfig "x") rfl⟩,
   ⟨rfl, (C10_default_is_first false "/usr/bin/python3" plainConf).2
      plainOut rfl⟩⟩

end Cfg
